import Mathlib

/-! Verification development for the inline-completion engine
(`LlmInlineCompletionItemProvider` in
`src/extension/externalAgents/node/oaiLanguageModelServer.ts`).

The TypeScript class is shallowly embedded as pure Lean functions:
* the session registry (`_sessions : Map<string, CompletionSession>`) becomes
  an association list `List (String × CompletionSession)`;
* `provideInlineCompletionItems`, `_clearSession`, `handleEndOfLifetime`,
  `handleListEndOfLifetime` become state-passing functions;
* the asynchronous `_requestCompletion` driver becomes a function applying a
  run description (delta callbacks, final fetch outcome, the finally block);
* `_throttle` becomes an arithmetic function over integer timestamps, plus a
  small interleaving semantics for concurrent throttle calls.

JavaScript mutation of the shared session object is modelled by also
returning the final state of a removed session object from `_clearSession`
(the driver keeps a reference to it after it leaves the map).
-/

namespace LlmCompletions

/-- Modelled from the spec (§9 design notes): the cancellation handle type
(`CancellationTokenSource` from the host utility library, not part of the
provided sources) supports `cancel()` and `dispose()`; `dispose()` releases
the handle and does not fire the token.  We count `dispose` invocations to
reason about the "disposed exactly once" discipline. -/
structure Cancellation where
  cancelRequested : Bool
  disposeCount : Nat
deriving Repr, DecidableEq

def Cancellation.cancel (c : Cancellation) : Cancellation :=
  { c with cancelRequested := true }

def Cancellation.dispose (c : Cancellation) : Cancellation :=
  { c with disposeCount := c.disposeCount + 1 }

/-- A fresh `new CancellationTokenSource(token)`. -/
def Cancellation.fresh : Cancellation :=
  { cancelRequested := false, disposeCount := 0 }

structure Position where
  line : Nat
  character : Nat
deriving Repr, DecidableEq

/-- The document view the provider reads (`TextDocument`): uri, version,
language id and the line contents. -/
structure TextDocument where
  uri : String
  version : Nat
  languageId : String
  lines : List String
deriving Repr, DecidableEq

/-- The source's `interface CompletionSession`, with the shared
`CancellationTokenSource` replaced by the counted model above and the empty
`range = new Range(position, position)` kept as a start/end pair. -/
structure CompletionSession where
  requestUuid : String
  documentUri : String
  documentVersion : Nat
  position : Position
  rangeStart : Position
  rangeEnd : Position
  cancellation : Cancellation
  text : String
  done : Bool
  error : Option String
deriving Repr, DecidableEq

/-- One `InlineCompletionItem` as built in the success path of
`provideInlineCompletionItems`. -/
structure InlineItem where
  insertText : String
  rangeStart : Position
  rangeEnd : Position
  correlationId : Option String
deriving Repr, DecidableEq

/-- The provider's mutable fields that the registry layer touches:
`_sessions` and `_lastRequestTimestamp`. -/
structure ProviderState where
  sessions : List (String × CompletionSession)
  lastRequestTimestamp : Int
deriving Repr, DecidableEq

/-- Lookup, modelling `Map.get`. -/
def mapGet (m : List (String × CompletionSession)) (k : String) :
    Option CompletionSession :=
  match m.find? (fun p => p.1 == k) with
  | some p => some p.2
  | none => none

/-- Insertion, modelling `Map.set` (replace in place, else append). -/
def mapSet (m : List (String × CompletionSession)) (k : String)
    (v : CompletionSession) : List (String × CompletionSession) :=
  if (m.find? (fun p => p.1 == k)).isSome then
    m.map (fun p => if p.1 == k then (k, v) else p)
  else
    m ++ [(k, v)]

/-- Removal, modelling `Map.delete`. -/
def mapDelete (m : List (String × CompletionSession)) (k : String) :
    List (String × CompletionSession) :=
  m.filter (fun p => !(p.1 == k))

/-- JavaScript truthiness of an optional string field (`if (session.error)`,
`if (completionItem.correlationId)`): `undefined` and the empty string are
both falsy. -/
def strTruthy : Option String → Bool
  | none => false
  | some s => !(s == "")

/-- The method `_clearSession(requestUuid, cancel)`.  Besides the updated provider state
the model returns the final state of the removed session object (the running
driver still holds a reference to it in the source, so its `cancellation`
fields stay observable after the map entry is gone). -/
def _clearSession (st : ProviderState) (requestUuid : String)
    (cancel : Bool) : ProviderState × Option CompletionSession :=
  match mapGet st.sessions requestUuid with
  | none => (st, none)
  | some session =>
    let c0 := session.cancellation
    let c1 := if cancel && !c0.cancelRequested then c0.cancel else c0
    let c2 := c1.dispose
    ({ st with sessions := mapDelete st.sessions requestUuid },
     some { session with cancellation := c2 })

/-- The callback `handleEndOfLifetime(completionItem)`: clears (without cancelling) the
session named by a truthy `correlationId`. -/
def handleEndOfLifetime (st : ProviderState) (item : InlineItem) :
    ProviderState × Option CompletionSession :=
  match item.correlationId with
  | some cid => if cid == "" then (st, none) else _clearSession st cid false
  | none => (st, none)

/-- The callback `handleListEndOfLifetime(list)`: clears (without cancelling) the session
named by the first item's truthy `correlationId`. -/
def handleListEndOfLifetime (st : ProviderState) (items : List InlineItem) :
    ProviderState × Option CompletionSession :=
  match items.head? with
  | some item =>
    match item.correlationId with
    | some cid => if cid == "" then (st, none) else _clearSession st cid false
    | none => (st, none)
  | none => (st, none)

/-- The word-character test of the regular expression `/\w/`. -/
def isWordChar (c : Char) : Bool :=
  c.isAlpha || c.isDigit || c == '_'

/-- The guard `_isAtMidWord(document, position)`: true when the character immediately
after the position exists on the line and is a word character. -/
def _isAtMidWord (doc : TextDocument) (pos : Position) : Bool :=
  let line := doc.lines.getD pos.line ""
  if line.length ≤ pos.character then false
  else isWordChar (line.data.getD pos.character ' ')

/-- The guard `_isLanguageEnabled(document)`: the enablement record with a `*`
wildcard defaulting to true; an absent record enables every language. -/
def _isLanguageEnabled (config : Option (List (String × Bool)))
    (languageId : String) : Bool :=
  match config with
  | none => true
  | some entries =>
    let m := if (entries.find? (fun p => p.1 == "*")).isSome then entries
             else entries ++ [("*", true)]
    match m.find? (fun p => p.1 == languageId) with
    | some p => p.2
    | none =>
      match m.find? (fun p => p.1 == "*") with
      | some p => p.2
      | none => true

/-- The synthesized request key
`uri + "#" + version + "#" + line + ":" + character`. -/
def synthRequestKey (doc : TextDocument) (pos : Position) : String :=
  doc.uri ++ "#" ++ toString doc.version ++ "#" ++ toString pos.line ++ ":"
    ++ toString pos.character

/-- The session object built in the "not found" branch of
`provideInlineCompletionItems`: a new pending session with empty text, not
done, no error, and a fresh cancellation source. -/
def freshSession (doc : TextDocument) (pos : Position) (requestKey : String) :
    CompletionSession :=
  { requestUuid := requestKey
    documentUri := doc.uri
    documentVersion := doc.version
    position := pos
    rangeStart := pos
    rangeEnd := pos
    cancellation := Cancellation.fresh
    text := ""
    done := false
    error := none }

/-- Result of one `provideInlineCompletionItems` call: the (at most one)
returned item, the provider state afterwards, and whether the call kicked
off `_requestCompletion` without awaiting it (`void this._requestCompletion`). -/
structure PollOut where
  item : Option InlineItem
  state : ProviderState
  startedDriver : Bool
deriving Repr, DecidableEq

/-- The entry point `provideInlineCompletionItems(document, position, context, token)`.
`ctxRequestUuid` is `context.requestUuid`.  The host token handed in at
creation is modelled separately (see `hostTokenFired`); the function itself
performs no awaits on any path shown, so it is a pure state transformer. -/
def provideInlineCompletionItems (config : Option (List (String × Bool)))
    (st : ProviderState) (doc : TextDocument) (pos : Position)
    (ctxRequestUuid : Option String) : PollOut :=
  if !(_isLanguageEnabled config doc.languageId) then ⟨none, st, false⟩
  else if _isAtMidWord doc pos then ⟨none, st, false⟩
  else
    let requestKey := ctxRequestUuid.getD (synthRequestKey doc pos)
    let looked :=
      match mapGet st.sessions requestKey with
      | some s =>
        if s.documentVersion ≠ doc.version then
          ((_clearSession st s.requestUuid true).1,
           (none : Option CompletionSession))
        else (st, some s)
      | none => (st, none)
    match looked.2 with
    | none =>
      ⟨none,
       { looked.1 with
           sessions :=
             mapSet looked.1.sessions requestKey
               (freshSession doc pos requestKey) },
       true⟩
    | some s =>
      if strTruthy s.error then
        ⟨none, (_clearSession looked.1 s.requestUuid true).1, false⟩
      else if s.text == "" then ⟨none, looked.1, false⟩
      else
        ⟨some { insertText := s.text
                rangeStart := s.rangeStart
                rangeEnd := s.rangeEnd
                correlationId := some s.requestUuid },
         looked.1, false⟩

/-- The listener registered at session creation:
`token.onCancellationRequested(() => this._clearSession(requestKey, true))`.
Firing the host token runs `_clearSession` with `cancel = true`. -/
def hostTokenFired (st : ProviderState) (requestKey : String) :
    ProviderState × Option CompletionSession :=
  _clearSession st requestKey true

/-! The streaming driver `_requestCompletion`.

`_requestCompletion` awaits the throttle, optionally returns early when the
session token already fired, then runs `fetchOne` whose `finishedCb` is
invoked once per streamed delta, and finally classifies the resolution.  The
`finally` block disposes the session's cancellation source on every path.
A whole run is described by a `DriverRun` value and replayed over the shared
session object by `runDriver`. -/

/-- One invocation of the `finishedCb(text, _index, delta)` callback:
`text` is the cumulative text reported by the transport, `deltaText` is
`delta.text`, and `cancelRequested` is the session token state at that
moment. -/
structure DeltaCall where
  text : String
  deltaText : String
  cancelRequested : Bool
deriving Repr, DecidableEq

/-- Effect of one `finishedCb` invocation on the session object. -/
def applyDelta (s : CompletionSession) (d : DeltaCall) : CompletionSession :=
  if d.cancelRequested then s
  else if d.deltaText == "" then s
  else { s with text := d.text }

/-- Resolution of the `fetchOne` promise, or the exception path:
`threw m c` is the `catch` block with message `m` and
`cancellationToken.isCancellationRequested = c` at catch time. -/
inductive FetchOutcome where
  | success (value : String)
  | canceled
  | failed (reason : String)
  | threw (message : String) (cancelRequestedAtCatch : Bool)
deriving Repr, DecidableEq

/-- The post-`fetchOne` classification in `_requestCompletion`. -/
def applyOutcome (s : CompletionSession) : FetchOutcome → CompletionSession
  | .success v =>
    let s := if s.text == "" then { s with text := v } else s
    { s with done := true }
  | .canceled => { s with error := some "cancelled" }
  | .failed r => { s with error := some r }
  | .threw m c => if c then s else { s with error := some m }

/-- One complete run of `_requestCompletion` over a session object:
`earlyCancel` is the `if (cancellationToken.isCancellationRequested) return`
check right after the throttle; otherwise the deltas arrive in order and the
fetch resolves (or throws) with `outcome`. -/
structure DriverRun where
  earlyCancel : Bool
  deltas : List DeltaCall
  outcome : FetchOutcome
deriving Repr, DecidableEq

/-- Replay a whole `_requestCompletion` run, including the `finally` block's
`session.cancellation.dispose()`. -/
def runDriver (s : CompletionSession) (r : DriverRun) : CompletionSession :=
  let s :=
    if r.earlyCancel then s
    else applyOutcome (r.deltas.foldl applyDelta s) r.outcome
  { s with cancellation := s.cancellation.dispose }

/-- Boolean prefix test on character lists. -/
def listPref : List Char → List Char → Bool
  | [], _ => true
  | _ :: _, [] => false
  | a :: as, b :: bs => a == b && listPref as bs

/-- Relation:  `a` is an initial segment of `b` (the "is-a-prefix-of" relation on the
accumulated text). -/
def strExt (a b : String) : Prop := ∃ t, b.data = a.data ++ t

/-- Transport contract along a delta trace: each callback's cumulative
`text` extends the text the session holds when the callback runs (the
remote transport reports cumulative text, and the session text is always a
previously reported cumulative value or empty). -/
def cumulativeOk : CompletionSession → List DeltaCall → Bool
  | _, [] => true
  | s, d :: ds => listPref s.text.data d.text.data && cumulativeOk (applyDelta s d) ds

/-! The throttle `_throttle`.

`_throttle` reads `Date.now()`, computes
`diff = MIN_REQUEST_INTERVAL - (now - _lastRequestTimestamp)`, awaits
`raceCancellation(timeout(diff), token)` when `diff > 0`, and then
unconditionally stores `_lastRequestTimestamp = Date.now()`. -/

def MIN_REQUEST_INTERVAL : Int := 75

/-- Modelled from the spec: `raceCancellation(timeout(diff), token)` (from
the host utility library `util/vs/base/common/async`, not part of the
provided sources) suspends until the timeout elapses or the token fires,
whichever is first, and then resolves normally — it does not throw on
cancellation.  This matches the spec's §4.2 step "suspends for `wait` or
until `cancellationToken` fires, whichever is first; on exit, updates
`T_last = now`" and the caller's explicit post-await cancellation check.
`throttleExit tLast now cancelAt` is the time `_throttle` resumes when it is
entered at `now` with stored timestamp `tLast` and the token fires at
`cancelAt` (if ever). -/
def throttleExit (tLast now : Int) (cancelAt : Option Int) : Int :=
  let diff := MIN_REQUEST_INTERVAL - (now - tLast)
  if 0 < diff then
    match cancelAt with
    | some c => if c < now + diff then max now c else now + diff
    | none => now + diff
  else now

/-- One `_throttle` call: returns (resume time, new `_lastRequestTimestamp`).
The final assignment `this._lastRequestTimestamp = Date.now()` runs on every
path, so the stored timestamp is always the resume time. -/
def throttleRun (tLast now : Int) (cancelAt : Option Int) : Int × Int :=
  let e := throttleExit tLast now cancelAt
  (e, e)

/-! Interleaving semantics for concurrent `_throttle` calls

Several `_requestCompletion` drivers can be inside `_throttle`
simultaneously (the cooperative scheduler interleaves them at the `await`).
A `call id now` step runs the synchronous head of `_throttle` for driver
`id` at time `now`: it reads the current `_lastRequestTimestamp`, and either
dispatches immediately (`diff ≤ 0`) or schedules a wake-up.  A `wake id`
step resumes a suspended call at its scheduled time: it stores the
timestamp and dispatches.  Dispatch timestamps (the `fetchOne` calls, issued
right after `_throttle` returns) are recorded in order. -/

structure ThState where
  tLast : Int
  pending : List (Nat × Int)
  dispatches : List Int
deriving Repr, DecidableEq

inductive ThEvent where
  | call (id : Nat) (now : Int)
  | wake (id : Nat)
deriving Repr, DecidableEq

/-- One scheduler step; `none` when the event is not enabled (time runs
backwards, or a wake for a call that is not suspended).  The `Int` component
is the current time. -/
def thStep : Int × ThState → ThEvent → Option (Int × ThState)
  | (ct, st), .call id now =>
    if now < ct then none
    else
      let diff := MIN_REQUEST_INTERVAL - (now - st.tLast)
      if 0 < diff then
        some (now, { st with pending := st.pending ++ [(id, now + diff)] })
      else
        some (now, { tLast := now, pending := st.pending,
                     dispatches := st.dispatches ++ [now] })
  | (ct, st), .wake id =>
    match st.pending.find? (fun p => p.1 == id) with
    | none => none
    | some p =>
      if p.2 < ct then none
      else
        some (p.2, { tLast := p.2,
                     pending := st.pending.filter (fun q => !(q.1 == id)),
                     dispatches := st.dispatches ++ [p.2] })

/-- Run a schedule of throttle events. -/
def thRun : Int × ThState → List ThEvent → Option (Int × ThState)
  | s, [] => some s
  | s, e :: es =>
    match thStep s e with
    | some s2 => thRun s2 es
    | none => none

/-- The provider starts with `_lastRequestTimestamp = 0`. -/
def thInit : Int × ThState := (0, { tLast := 0, pending := [], dispatches := [] })

/-- A schedule is sequential when every `call` step starts while no other
throttle call is suspended (no overlapping waits). -/
def callsSeq : Int × ThState → List ThEvent → Bool
  | _, [] => true
  | s, e :: es =>
    (match e with
     | .call _ _ => s.2.pending.isEmpty
     | .wake _ => true) &&
    (match thStep s e with
     | some s2 => callsSeq s2 es
     | none => true)

/-- Consecutive dispatch timestamps are at least `MIN_REQUEST_INTERVAL`
apart. -/
def spacedOk : List Int → Bool
  | [] => true
  | [_] => true
  | a :: b :: r => decide (a + MIN_REQUEST_INTERVAL ≤ b) && spacedOk (b :: r)

/-- The accumulated text after the first `n` delta callbacks of a driver
trace: the value a poll observes at that moment. -/
def textAt (s : CompletionSession) (ds : List DeltaCall) (n : Nat) : String :=
  ((ds.take n).foldl applyDelta s).text

/-- Concrete inputs used by witnesses and counterexamples. -/
def sampleDoc : TextDocument :=
  { uri := "file:a.ts", version := 1, languageId := "typescript",
    lines := ["foobar"] }

def samplePos : Position := { line := 0, character := 6 }

def sampleSession : CompletionSession :=
  { requestUuid := "k"
    documentUri := "file:a.ts"
    documentVersion := 1
    position := samplePos
    rangeStart := samplePos
    rangeEnd := samplePos
    cancellation := Cancellation.fresh
    text := "abc"
    done := false
    error := none }

def sampleState : ProviderState :=
  { sessions := [("k", sampleSession)], lastRequestTimestamp := 0 }

/-- The item the provider would have handed to the host for
`sampleSession` (used to drive the end-of-lifetime callbacks). -/
def sampleShownItem : InlineItem :=
  { insertText := "abc", rangeStart := samplePos, rangeEnd := samplePos,
    correlationId := some "k" }

/-- A driver run that streams nothing and resolves successfully. -/
def sampleSuccessRun : DriverRun :=
  { earlyCancel := false, deltas := [], outcome := .success "x" }

/-- A driver run whose remote call resolves as cancelled. -/
def sampleCanceledRun : DriverRun :=
  { earlyCancel := false, deltas := [], outcome := .canceled }

/-- A streaming session starting with empty text, and a cumulative delta
trace for it. -/
def sampleStreamSession : CompletionSession :=
  { sampleSession with text := "" }

def sampleDeltas : List DeltaCall :=
  [{ text := "fu", deltaText := "fu", cancelRequested := false },
   { text := "func", deltaText := "nc", cancelRequested := false }]

/-- Overlapping-wait schedule: dispatch at 1000, then two throttle calls at
1010 and 1020 both read `tLast = 1000` and wake together at 1075. -/
def raceTrace : List ThEvent :=
  [.call 1 1000, .call 2 1010, .call 3 1020, .wake 2, .wake 3]

/-- A sequential schedule: each call starts after every wait has finished. -/
def seqTrace : List ThEvent :=
  [.call 1 1000, .call 2 1080, .call 3 1090, .wake 3]

def seqOut : Int × ThState :=
  (1155, { tLast := 1155, pending := [], dispatches := [1000, 1080, 1155] })

/-- A registered session whose driver already recorded a remote failure. -/
def sampleErroredSession : CompletionSession :=
  { sampleSession with error := some "rate_limited" }

def sampleErroredState : ProviderState :=
  { sessions := [("k", sampleErroredSession)], lastRequestTimestamp := 0 }

/-- A registered session for an outdated document version (document is now
at version 1, the session was created at version 3). -/
def sampleStaleSession : CompletionSession :=
  { sampleSession with documentVersion := 3 }

def sampleStaleState : ProviderState :=
  { sessions := [("k", sampleStaleSession)], lastRequestTimestamp := 0 }

/-! Helper lemmas. -/

theorem listPref_iff (a b : List Char) :
    listPref a b = true ↔ ∃ t, b = a ++ t := by
  induction a generalizing b with
  | nil =>
    simp [listPref]
  | cons x xs ih =>
    cases b with
    | nil => simp [listPref]
    | cons y ys =>
      simp only [listPref, Bool.and_eq_true, beq_iff_eq, ih, List.cons_append,
        List.cons.injEq]
      constructor
      · rintro ⟨h1, t, h2⟩
        exact ⟨t, h1.symm, h2⟩
      · rintro ⟨t, h1, h2⟩
        exact ⟨h1.symm, t, h2⟩

theorem strExt_refl (a : String) : strExt a a :=
  ⟨[], by simp⟩

theorem strExt_trans {a b c : String} (h1 : strExt a b) (h2 : strExt b c) :
    strExt a c := by
  obtain ⟨t1, ht1⟩ := h1
  obtain ⟨t2, ht2⟩ := h2
  exact ⟨t1 ++ t2, by rw [ht2, ht1, List.append_assoc]⟩

theorem strExt_applyDelta (s : CompletionSession) (d : DeltaCall)
    (h : listPref s.text.data d.text.data = true) :
    strExt s.text (applyDelta s d).text := by
  unfold applyDelta
  split
  · exact strExt_refl _
  · split
    · exact strExt_refl _
    · obtain ⟨t, ht⟩ := (listPref_iff _ _).1 h
      exact ⟨t, ht⟩

theorem applyDelta_cancellation (s : CompletionSession) (d : DeltaCall) :
    (applyDelta s d).cancellation = s.cancellation := by
  unfold applyDelta
  split
  · rfl
  · split <;> rfl

theorem applyDelta_error (s : CompletionSession) (d : DeltaCall) :
    (applyDelta s d).error = s.error := by
  unfold applyDelta
  split
  · rfl
  · split <;> rfl

theorem foldl_applyDelta_cancellation (ds : List DeltaCall)
    (s : CompletionSession) :
    (ds.foldl applyDelta s).cancellation = s.cancellation := by
  induction ds generalizing s with
  | nil => rfl
  | cons d rest ih =>
    rw [List.foldl_cons, ih, applyDelta_cancellation]

theorem applyOutcome_cancellation (s : CompletionSession) (o : FetchOutcome) :
    (applyOutcome s o).cancellation = s.cancellation := by
  cases o with
  | success v =>
    simp only [applyOutcome]
    split <;> rfl
  | canceled => rfl
  | failed r => rfl
  | threw m c =>
    simp only [applyOutcome]
    split <;> rfl

theorem strExt_applyOutcome (s : CompletionSession) (o : FetchOutcome) :
    strExt s.text (applyOutcome s o).text := by
  cases o with
  | success v =>
    simp only [applyOutcome]
    split
    · next hemp =>
      have hnil : s.text = "" := by simpa using hemp
      rw [hnil]
      exact ⟨v.data, rfl⟩
    · exact strExt_refl _
  | canceled => exact strExt_refl _
  | failed r => exact strExt_refl _
  | threw m c =>
    simp only [applyOutcome]
    split
    · exact strExt_refl _
    · exact strExt_refl _

theorem strExt_foldl (ds : List DeltaCall) (s : CompletionSession)
    (h : cumulativeOk s ds = true) :
    strExt s.text ((ds.foldl applyDelta s)).text := by
  induction ds generalizing s with
  | nil => exact strExt_refl _
  | cons d rest ih =>
    simp only [cumulativeOk, Bool.and_eq_true] at h
    rw [List.foldl_cons]
    exact strExt_trans (strExt_applyDelta s d h.1) (ih (applyDelta s d) h.2)

theorem cumulativeOk_append (l1 l2 : List DeltaCall) (s : CompletionSession)
    (h : cumulativeOk s (l1 ++ l2) = true) :
    cumulativeOk (l1.foldl applyDelta s) l2 = true := by
  induction l1 generalizing s with
  | nil => exact h
  | cons d rest ih =>
    simp only [List.cons_append, cumulativeOk, Bool.and_eq_true] at h
    exact ih (applyDelta s d) h.2

theorem cumulativeOk_take (ds : List DeltaCall) (n : Nat)
    (s : CompletionSession) (h : cumulativeOk s ds = true) :
    cumulativeOk s (ds.take n) = true := by
  induction ds generalizing s n with
  | nil => simp [cumulativeOk]
  | cons d rest ih =>
    cases n with
    | zero => simp [cumulativeOk]
    | succ m =>
      simp only [List.take_succ_cons, cumulativeOk, Bool.and_eq_true] at h ⊢
      exact ⟨h.1, ih m _ h.2⟩

theorem textAt_mono (s : CompletionSession) (ds : List DeltaCall)
    (h : cumulativeOk s ds = true) {i j : Nat} (hij : i ≤ j) :
    strExt (textAt s ds i) (textAt s ds j) := by
  have h1 : (ds.take j).take i = ds.take i := by
    rw [List.take_take, Nat.min_eq_left hij]
  have hsplit : ds.take j = ds.take i ++ (ds.take j).drop i := by
    conv_lhs => rw [← List.take_append_drop i (ds.take j)]
    rw [h1]
  unfold textAt
  rw [hsplit, List.foldl_append]
  apply strExt_foldl
  apply cumulativeOk_append
  rw [← hsplit]
  exact cumulativeOk_take ds j s h

theorem mapGet_cons (p : String × CompletionSession)
    (rest : List (String × CompletionSession)) (k : String) :
    mapGet (p :: rest) k = if p.1 = k then some p.2 else mapGet rest k := by
  by_cases h : p.1 = k
  · unfold mapGet
    rw [List.find?_cons_of_pos _ (by simpa using h), if_pos h]
  · unfold mapGet
    rw [List.find?_cons_of_neg _ (by simpa using h), if_neg h]

theorem mapGet_mapDelete_self (m : List (String × CompletionSession))
    (k : String) : mapGet (mapDelete m k) k = none := by
  induction m with
  | nil => rfl
  | cons p rest ih =>
    unfold mapDelete at ih ⊢
    rw [List.filter_cons]
    by_cases h : p.1 = k
    · have hb : (!(p.1 == k)) = false := by simpa using h
      rw [hb]
      simpa using ih
    · have hb : (!(p.1 == k)) = true := by simpa using h
      rw [hb]
      simp only [if_true]
      rw [mapGet_cons, if_neg h]
      exact ih

theorem mapGet_mapSet_self (m : List (String × CompletionSession))
    (k : String) (v : CompletionSession) :
    mapGet (mapSet m k v) k = some v := by
  unfold mapSet
  split
  · next hfound =>
    induction m with
    | nil => simp at hfound
    | cons p rest ih =>
      rw [List.map_cons]
      by_cases h : p.1 = k
      · have hb : (p.1 == k) = true := by simpa using h
        rw [hb]
        simp only [if_true]
        rw [mapGet_cons, if_pos rfl]
      · have hb : (p.1 == k) = false := by simpa using h
        rw [hb]
        simp only [Bool.false_eq_true, if_false]
        rw [mapGet_cons, if_neg h]
        apply ih
        rw [List.find?_cons_of_neg _ (by simpa using h)] at hfound
        exact hfound
  · next hfound =>
    induction m with
    | nil =>
      rw [List.nil_append, mapGet_cons, if_pos rfl]
    | cons p rest ih =>
      by_cases h : p.1 = k
      · exfalso
        apply hfound
        rw [List.find?_cons_of_pos _ (by simpa using h)]
        rfl
      · rw [List.cons_append, mapGet_cons, if_neg h]
        apply ih
        intro hc
        apply hfound
        rw [List.find?_cons_of_neg _ (by simpa using h)]
        exact hc

theorem spacedOk_append (l : List Int) (x : Int) (h : spacedOk l = true)
    (hl : ∀ d, l.getLast? = some d → d + MIN_REQUEST_INTERVAL ≤ x) :
    spacedOk (l ++ [x]) = true := by
  induction l with
  | nil => rfl
  | cons a rest ih =>
    cases rest with
    | nil =>
      simp only [List.cons_append, List.nil_append, spacedOk,
        Bool.and_eq_true, decide_eq_true_eq]
      refine ⟨hl a rfl, ?_⟩
      trivial
    | cons b rest2 =>
      simp only [List.cons_append, spacedOk, Bool.and_eq_true,
        decide_eq_true_eq] at h ⊢
      exact ⟨h.1, ih h.2 (fun d hd => hl d hd)⟩

theorem thRun_seq_spaced (tr : List ThEvent) :
    ∀ (ct : Int) (st : ThState) (out : Int × ThState),
      spacedOk st.dispatches = true →
      (∀ d, st.dispatches.getLast? = some d → d = st.tLast) →
      (st.pending = [] ∨
        ∃ id, st.pending = [(id, st.tLast + MIN_REQUEST_INTERVAL)]) →
      thRun (ct, st) tr = some out →
      callsSeq (ct, st) tr = true →
      spacedOk out.2.dispatches = true := by
  induction tr with
  | nil =>
    intro ct st out h1 _ _ hrun _
    simp only [thRun, Option.some.injEq] at hrun
    rw [← hrun]
    exact h1
  | cons e rest ih =>
    intro ct st out h1 h2 h3 hrun hseq
    simp only [thRun] at hrun
    simp only [callsSeq, Bool.and_eq_true] at hseq
    obtain ⟨hguard, hseq2⟩ := hseq
    cases e with
    | call id now =>
      have hpend : st.pending = [] := by
        simpa [List.isEmpty_iff] using hguard
      by_cases hct : now < ct
      · simp only [thStep, if_pos hct] at hrun
        exact absurd hrun (by simp)
      · by_cases hdiff : 0 < MIN_REQUEST_INTERVAL - (now - st.tLast)
        · simp only [thStep, if_neg hct, if_pos hdiff] at hrun hseq2
          refine ih now
            { st with pending :=
                st.pending ++ [(id, now + (MIN_REQUEST_INTERVAL - (now - st.tLast)))] }
            out h1 h2 ?_ hrun hseq2
          refine Or.inr ⟨id, ?_⟩
          have harith : now + (MIN_REQUEST_INTERVAL - (now - st.tLast)) =
              st.tLast + MIN_REQUEST_INTERVAL := by ring
          show st.pending ++ [(id, now + (MIN_REQUEST_INTERVAL - (now - st.tLast)))] =
              [(id, st.tLast + MIN_REQUEST_INTERVAL)]
          rw [hpend, List.nil_append, harith]
        · have hge : st.tLast + MIN_REQUEST_INTERVAL ≤ now := by
            have hd0 : MIN_REQUEST_INTERVAL - (now - st.tLast) ≤ 0 := by linarith
            linarith
          simp only [thStep, if_neg hct, if_neg hdiff] at hrun hseq2
          refine ih now
            { tLast := now, pending := st.pending,
              dispatches := st.dispatches ++ [now] }
            out ?_ ?_ ?_ hrun hseq2
          · exact spacedOk_append _ _ h1 (fun d hd => by rw [h2 d hd]; exact hge)
          · intro d hd
            simp only [List.getLast?_concat, Option.some.injEq] at hd
            rw [← hd]
          · exact Or.inl hpend
    | wake id =>
      rcases h3 with hpend | ⟨id0, hpend⟩
      · simp only [thStep, hpend, List.find?_nil] at hrun
        exact absurd hrun (by simp)
      · by_cases hid : id0 = id
        · subst hid
          have hfind : List.find? (fun p => p.1 == id0)
              [((id0 : Nat), st.tLast + MIN_REQUEST_INTERVAL)] =
              some (id0, st.tLast + MIN_REQUEST_INTERVAL) := by
            simp [List.find?]
          have hfilt : List.filter (fun q => !(q.1 == id0))
              [((id0 : Nat), st.tLast + MIN_REQUEST_INTERVAL)] = [] := by
            simp [List.filter]
          by_cases hlt : st.tLast + MIN_REQUEST_INTERVAL < ct
          · simp only [thStep, hpend, hfind, if_pos hlt] at hrun
            exact absurd hrun (by simp)
          · simp only [thStep, hpend, hfind, hfilt, if_neg hlt] at hrun hseq2
            refine ih (st.tLast + MIN_REQUEST_INTERVAL)
              { tLast := st.tLast + MIN_REQUEST_INTERVAL, pending := [],
                dispatches := st.dispatches ++ [st.tLast + MIN_REQUEST_INTERVAL] }
              out ?_ ?_ (Or.inl rfl) hrun hseq2
            · exact spacedOk_append _ _ h1 (fun d hd => by rw [h2 d hd])
            · intro d hd
              simp only [List.getLast?_concat, Option.some.injEq] at hd
              rw [← hd]
        · have hb : (id0 == id) = false := by simpa using hid
          have hfind : List.find? (fun p => p.1 == id)
              [((id0 : Nat), st.tLast + MIN_REQUEST_INTERVAL)] = none := by
            simp [List.find?, hb]
          simp only [thStep, hpend, hfind] at hrun
          exact absurd hrun (by simp)

/-! Claim theorems. -/

/-- C3 (counterexample): the claim says that when the token fires during the
computed wait, the throttle aborts without updating `T_last`.  With
`T_last = 1000`, a call entering at 1010 (wait window ends at 1075) and the
token firing at 1020, `_throttle` resumes at 1020 and stores
`T_last = 1020`, not 1000: the timestamp IS updated on the cancelled exit. -/
theorem throttle_cancel_updates_timestamp_counterexample :
    throttleRun 1000 1010 (some 1020) = (1020, 1020) ∧
    (throttleRun 1000 1010 (some 1020)).2 ≠ 1000 := by
  decide

/-- C3 (amended): if the token fires during the computed wait, the wait ends
early at the cancellation time `c` (so the caller's follow-up cancellation
check makes it skip the dispatch), but `_lastRequestTimestamp` is still
updated to the exit time `c` rather than left unchanged. -/
theorem throttle_cancel_exits_early_updating_timestamp
    (tLast now c : Int) (h1 : tLast ≤ now)
    (h2 : now < tLast + MIN_REQUEST_INTERVAL) (h3 : now ≤ c)
    (h4 : c < tLast + MIN_REQUEST_INTERVAL) :
    throttleRun tLast now (some c) = (c, c) := by
  have hd : 0 < MIN_REQUEST_INTERVAL - (now - tLast) := by linarith
  have hsum : now + (MIN_REQUEST_INTERVAL - (now - tLast)) =
      tLast + MIN_REQUEST_INTERVAL := by ring
  simp only [throttleRun, throttleExit]
  rw [if_pos hd, hsum, if_pos h4, max_eq_right h3]

/-- C3 (witness for the amended theorem) at concrete times. -/
theorem throttle_cancel_exits_early_updating_timestamp_witness :
    throttleRun 1000 1010 (some 1020) = (1020, 1020) :=
  throttle_cancel_exits_early_updating_timestamp 1000 1010 1020
    (by decide) (by decide) (by decide) (by decide)

/-- C5 (counterexample): the claim says `errorDetail` stays unset on the
Streaming-to-Cancelled transition.  A session with no error whose remote
call resolves as cancelled ends the driver run with
`error = some "cancelled"`, i.e. the error field is set on that transition
(source line: `session.error = 'cancelled'`). -/
theorem canceled_resolution_sets_error_counterexample :
    sampleSession.error = none ∧
    (runDriver sampleSession sampleCanceledRun).error = some "cancelled" ∧
    (runDriver sampleSession sampleCanceledRun).error ≠ none := by
  refine ⟨rfl, rfl, by simp [runDriver, applyOutcome, sampleCanceledRun]⟩

/-- C5 (amended): the error field is set not only on remote-reported
failures but also on the Canceled resolution (to the marker string
"cancelled"); it stays unchanged on success, on every delta, and on the
exception path when cancellation was already requested. -/
theorem error_field_by_outcome (s : CompletionSession) :
    (applyOutcome s .canceled).error = some "cancelled" ∧
    (∀ r, (applyOutcome s (.failed r)).error = some r) ∧
    (∀ m, (applyOutcome s (.threw m true)).error = s.error) ∧
    (∀ v, (applyOutcome s (.success v)).error = s.error) ∧
    (∀ d, (applyDelta s d).error = s.error) := by
  refine ⟨rfl, fun r => rfl, fun m => rfl, fun v => ?_, fun d => applyDelta_error s d⟩
  simp only [applyOutcome]
  split <;> rfl

/-- C2 (counterexample): the claim says the cancellation handle is disposed
exactly once over the session's whole lifetime.  For a session cleared by
the host (end-of-lifetime) while its driver is still awaiting the remote
call, `_clearSession` disposes once and the driver's `finally` block
disposes again when the call resolves: two dispose invocations. -/
theorem dispose_twice_counterexample :
    ((_clearSession sampleState "k" false).2.map
      (fun obj => (runDriver obj sampleSuccessRun).cancellation.disposeCount)) =
      some 2 ∧
    (2 : Nat) ≠ 1 := by
  decide

/-- C2 (amended): each driver run disposes the handle exactly once (the
`finally` block, on every exit path), and `_clearSession` on a registered
session also disposes exactly once — so a session cleared while its driver
is in flight sees two dispose invocations in total (dispose is idempotent
in the host library). -/
theorem driver_disposes_exactly_once :
    (∀ (s : CompletionSession) (r : DriverRun),
      (runDriver s r).cancellation.disposeCount =
        s.cancellation.disposeCount + 1) ∧
    (∀ (st : ProviderState) (k : String) (c : Bool) (s : CompletionSession),
      mapGet st.sessions k = some s →
      ∃ old, (_clearSession st k c).2 = some old ∧
        old.cancellation.disposeCount = s.cancellation.disposeCount + 1) := by
  constructor
  · intro s r
    simp only [runDriver, Cancellation.dispose]
    by_cases h : r.earlyCancel
    · simp [h]
    · simp [h, applyOutcome_cancellation, foldl_applyDelta_cancellation]
  · intro st k c s hget
    refine ⟨{ s with cancellation :=
      (if c && !s.cancellation.cancelRequested then s.cancellation.cancel
       else s.cancellation).dispose }, ?_, ?_⟩
    · simp only [_clearSession, hget]
    · by_cases hc : (c && !s.cancellation.cancelRequested) = true
      · simp [hc, Cancellation.dispose, Cancellation.cancel]
      · simp [hc, Cancellation.dispose]

/-- C2 (witness for the amended theorem) at a concrete session and state. -/
theorem driver_disposes_exactly_once_witness :
    (runDriver sampleSession sampleSuccessRun).cancellation.disposeCount =
      sampleSession.cancellation.disposeCount + 1 ∧
    ∃ old, (_clearSession sampleState "k" false).2 = some old ∧
      old.cancellation.disposeCount = sampleSession.cancellation.disposeCount + 1 :=
  ⟨driver_disposes_exactly_once.1 sampleSession sampleSuccessRun,
   driver_disposes_exactly_once.2 sampleState "k" false sampleSession (by decide)⟩

/-- C4 (counterexample): the claim says a natural-expiry callback — for a
shown completion or for a list — force-cancels the session's cancellation
handle when it has not already fired.  For a registered session with an
un-fired handle, both `handleEndOfLifetime` and `handleListEndOfLifetime`
remove it from the registry but leave `cancelRequested = false`: the source
passes `cancel = false` to `_clearSession` in both callbacks, so no
force-cancel happens. -/
theorem expiry_no_force_cancel_counterexample :
    sampleSession.cancellation.cancelRequested = false ∧
    ((handleEndOfLifetime sampleState sampleShownItem).2.map
      (fun obj => obj.cancellation.cancelRequested)) = some false ∧
    mapGet (handleEndOfLifetime sampleState sampleShownItem).1.sessions "k" =
      none ∧
    ((handleListEndOfLifetime sampleState [sampleShownItem]).2.map
      (fun obj => obj.cancellation.cancelRequested)) = some false ∧
    mapGet (handleListEndOfLifetime sampleState
      [sampleShownItem]).1.sessions "k" = none := by
  decide

/-- C4 (amended): a natural-expiry callback — `handleEndOfLifetime` for a
shown completion, or `handleListEndOfLifetime` for a list whose first item
carries the correlation id — with a truthy correlation id of a registered
session removes the session from the registry and disposes its handle once,
but does not cancel it: the cancellation flag is left exactly as it was,
and the in-flight remote call is allowed to finish silently.  Both
callbacks produce the identical result. -/
theorem expiry_clears_without_cancel (st : ProviderState) (item : InlineItem)
    (cid : String) (s : CompletionSession)
    (hcid : item.correlationId = some cid) (hne : (cid == "") = false)
    (hget : mapGet st.sessions cid = some s) :
    handleEndOfLifetime st item =
      ({ st with sessions := mapDelete st.sessions cid },
       some { s with cancellation :=
         { s.cancellation with
             disposeCount := s.cancellation.disposeCount + 1 } }) ∧
    mapGet (handleEndOfLifetime st item).1.sessions cid = none ∧
    (∀ items : List InlineItem, items.head? = some item →
      handleListEndOfLifetime st items =
        ({ st with sessions := mapDelete st.sessions cid },
         some { s with cancellation :=
           { s.cancellation with
               disposeCount := s.cancellation.disposeCount + 1 } })) ∧
    (∀ items : List InlineItem, items.head? = some item →
      mapGet (handleListEndOfLifetime st items).1.sessions cid = none) := by
  have hclear : _clearSession st cid false =
      ({ st with sessions := mapDelete st.sessions cid },
       some { s with cancellation :=
         { s.cancellation with
             disposeCount := s.cancellation.disposeCount + 1 } }) := by
    simp only [_clearSession, hget, Bool.false_and, Bool.false_eq_true,
      if_false, Cancellation.dispose]
  have hmain : handleEndOfLifetime st item =
      ({ st with sessions := mapDelete st.sessions cid },
       some { s with cancellation :=
         { s.cancellation with
             disposeCount := s.cancellation.disposeCount + 1 } }) := by
    simp only [handleEndOfLifetime, hcid, hne, Bool.false_eq_true, if_false]
    exact hclear
  have hlist : ∀ items : List InlineItem, items.head? = some item →
      handleListEndOfLifetime st items =
        ({ st with sessions := mapDelete st.sessions cid },
         some { s with cancellation :=
           { s.cancellation with
               disposeCount := s.cancellation.disposeCount + 1 } }) := by
    intro items hhead
    simp only [handleListEndOfLifetime, hhead, hcid, hne, Bool.false_eq_true,
      if_false]
    exact hclear
  refine ⟨hmain, ?_, hlist, ?_⟩
  · rw [hmain]
    exact mapGet_mapDelete_self st.sessions cid
  · intro items hhead
    rw [hlist items hhead]
    exact mapGet_mapDelete_self st.sessions cid

/-- C4 (witness for the amended theorem) at a concrete state, item and
singleton list. -/
theorem expiry_clears_without_cancel_witness :
    handleEndOfLifetime sampleState sampleShownItem =
      ({ sampleState with sessions := mapDelete sampleState.sessions "k" },
       some { sampleSession with cancellation :=
         { sampleSession.cancellation with
             disposeCount := sampleSession.cancellation.disposeCount + 1 } }) ∧
    handleListEndOfLifetime sampleState [sampleShownItem] =
      ({ sampleState with sessions := mapDelete sampleState.sessions "k" },
       some { sampleSession with cancellation :=
         { sampleSession.cancellation with
             disposeCount := sampleSession.cancellation.disposeCount + 1 } }) :=
  ⟨(expiry_clears_without_cancel sampleState sampleShownItem "k"
      sampleSession rfl rfl (by decide)).1,
   (expiry_clears_without_cancel sampleState sampleShownItem "k"
      sampleSession rfl rfl (by decide)).2.2.1 [sampleShownItem] rfl⟩

/-- C9 (counterexample): the claim says all pairs of consecutive remote
dispatches — including dispatches of different concurrently in-flight
sessions — are at least `MIN_REQUEST_INTERVAL` (75 ms) apart.  In the
schedule `raceTrace`, calls at 1010 and 1020 both read
`_lastRequestTimestamp = 1000` before either wait finishes, so both wake
and dispatch at 1075: two consecutive dispatches 0 ms apart. -/
theorem overlapping_throttle_counterexample :
    thRun thInit raceTrace =
      some (1075, { tLast := 1075, pending := [],
                    dispatches := [1000, 1075, 1075] }) ∧
    spacedOk [1000, 1075, 1075] = false := by
  decide

/-- C9 (amended): the 75 ms minimum spacing between consecutive dispatch
timestamps holds for every schedule in which throttle calls do not overlap
(each call starts only when no other call is suspended in its wait);
overlapping waits can produce dispatches closer than the interval. -/
theorem sequential_throttle_spacing (tr : List ThEvent) (out : Int × ThState)
    (hrun : thRun thInit tr = some out) (hseq : callsSeq thInit tr = true) :
    spacedOk out.2.dispatches = true := by
  refine thRun_seq_spaced tr 0 { tLast := 0, pending := [], dispatches := [] }
    out rfl ?_ (Or.inl rfl) hrun hseq
  intro d hd
  simp at hd

/-- C9 (witness for the amended theorem): a concrete sequential schedule
whose dispatches 1000, 1080, 1155 are properly spaced. -/
theorem sequential_throttle_spacing_witness :
    spacedOk seqOut.2.dispatches = true :=
  sequential_throttle_spacing seqTrace seqOut (by decide) (by decide)

/-- C10: clearing an unknown correlation id is a harmless no-op.  When no
session is registered under `cid`, `_clearSession` returns without any
change for either `cancel` flag, and both end-of-lifetime callbacks (with a
matching, an absent, or an empty first item) leave the whole provider state
— registry and all registered sessions — unchanged; clearing is idempotent. -/
theorem clear_unknown_id_noop (st : ProviderState) (cid : String)
    (hget : mapGet st.sessions cid = none) :
    (∀ c, _clearSession st cid c = (st, none)) ∧
    (∀ item : InlineItem, item.correlationId = some cid →
      handleEndOfLifetime st item = (st, none)) ∧
    (∀ item : InlineItem, item.correlationId = none →
      handleEndOfLifetime st item = (st, none)) ∧
    (∀ (items : List InlineItem) (item : InlineItem),
      items.head? = some item → item.correlationId = some cid →
      handleListEndOfLifetime st items = (st, none)) ∧
    handleListEndOfLifetime st [] = (st, none) := by
  have hclear : ∀ c, _clearSession st cid c = (st, none) := by
    intro c
    simp [_clearSession, hget]
  refine ⟨hclear, ?_, ?_, ?_, rfl⟩
  · intro item hcid
    simp only [handleEndOfLifetime, hcid]
    split
    · rfl
    · exact hclear false
  · intro item hcid
    simp only [handleEndOfLifetime, hcid]
  · intro items item hhead hcid
    simp only [handleListEndOfLifetime, hhead, hcid]
    split
    · rfl
    · exact hclear false

/-- C10 (witness) at a concrete state and an id with no session. -/
theorem clear_unknown_id_noop_witness :
    _clearSession sampleState "unknown" true = (sampleState, none) :=
  (clear_unknown_id_noop sampleState "unknown" (by decide)).1 true

/-- C8: a poll whose key maps to a registered session in the errored state
(`error` truthy, matching document version, guards passing) removes the
session from the registry and returns nothing, so the key holds no session
afterwards and the error is never surfaced again; the failure branch of the
driver records the remote-reported reason in `error`. -/
theorem errored_session_discarded_on_poll
    (config : Option (List (String × Bool))) (st : ProviderState)
    (doc : TextDocument) (pos : Position) (ctxRequestUuid : Option String)
    (requestKey : String) (s : CompletionSession)
    (hkey : ctxRequestUuid.getD (synthRequestKey doc pos) = requestKey)
    (hL : _isLanguageEnabled config doc.languageId = true)
    (hM : _isAtMidWord doc pos = false)
    (hget : mapGet st.sessions requestKey = some s)
    (huuid : s.requestUuid = requestKey)
    (hv : s.documentVersion = doc.version)
    (herr : strTruthy s.error = true) :
    provideInlineCompletionItems config st doc pos ctxRequestUuid =
      ⟨none, { st with sessions := mapDelete st.sessions requestKey }, false⟩ ∧
    mapGet (provideInlineCompletionItems config st doc pos
      ctxRequestUuid).state.sessions requestKey = none ∧
    (∀ (s2 : CompletionSession) (r : String),
      (applyOutcome s2 (.failed r)).error = some r) := by
  have hpoll : provideInlineCompletionItems config st doc pos ctxRequestUuid =
      ⟨none, { st with sessions := mapDelete st.sessions requestKey }, false⟩ := by
    simp [provideInlineCompletionItems, hkey, hget, hv, hL, hM, herr, huuid,
      _clearSession]
  refine ⟨hpoll, ?_, fun s2 r => rfl⟩
  rw [hpoll]
  exact mapGet_mapDelete_self st.sessions requestKey

/-- C8 (witness) at a concrete errored session. -/
theorem errored_session_discarded_on_poll_witness :
    provideInlineCompletionItems none sampleErroredState sampleDoc samplePos
      (some "k") =
      ⟨none, { sampleErroredState with
                 sessions := mapDelete sampleErroredState.sessions "k" },
       false⟩ :=
  (errored_session_discarded_on_poll none sampleErroredState sampleDoc
    samplePos (some "k") "k" sampleErroredSession rfl rfl rfl (by decide)
    rfl rfl (by decide)).1

/-- C7: a poll whose key has no registered session (guards passing)
registers a fresh pending session — empty accumulated text, not done, no
error, handle not fired — for the key, starts the driver without awaiting
it, and returns nothing; firing the host token afterwards removes the
session from the registry and cancels its handle. -/
theorem fresh_key_creates_pending_session
    (config : Option (List (String × Bool))) (st : ProviderState)
    (doc : TextDocument) (pos : Position) (ctxRequestUuid : Option String)
    (requestKey : String)
    (hkey : ctxRequestUuid.getD (synthRequestKey doc pos) = requestKey)
    (hL : _isLanguageEnabled config doc.languageId = true)
    (hM : _isAtMidWord doc pos = false)
    (hget : mapGet st.sessions requestKey = none) :
    provideInlineCompletionItems config st doc pos ctxRequestUuid =
      ⟨none,
       { st with sessions :=
           mapSet st.sessions requestKey (freshSession doc pos requestKey) },
       true⟩ ∧
    mapGet (provideInlineCompletionItems config st doc pos
        ctxRequestUuid).state.sessions requestKey =
      some (freshSession doc pos requestKey) ∧
    (freshSession doc pos requestKey).text = "" ∧
    (freshSession doc pos requestKey).done = false ∧
    (freshSession doc pos requestKey).error = none ∧
    (freshSession doc pos requestKey).cancellation.cancelRequested = false ∧
    (∃ old,
      (hostTokenFired (provideInlineCompletionItems config st doc pos
        ctxRequestUuid).state requestKey).2 = some old ∧
      old.cancellation.cancelRequested = true) ∧
    mapGet (hostTokenFired (provideInlineCompletionItems config st doc pos
      ctxRequestUuid).state requestKey).1.sessions requestKey = none := by
  have hpoll : provideInlineCompletionItems config st doc pos ctxRequestUuid =
      ⟨none,
       { st with sessions :=
           mapSet st.sessions requestKey (freshSession doc pos requestKey) },
       true⟩ := by
    simp [provideInlineCompletionItems, hkey, hget, hL, hM]
  have hreg : mapGet (provideInlineCompletionItems config st doc pos
      ctxRequestUuid).state.sessions requestKey =
      some (freshSession doc pos requestKey) := by
    rw [hpoll]
    exact mapGet_mapSet_self st.sessions requestKey _
  refine ⟨hpoll, hreg, rfl, rfl, rfl, rfl, ?_, ?_⟩
  · refine ⟨{ freshSession doc pos requestKey with
      cancellation := Cancellation.fresh.cancel.dispose }, ?_, rfl⟩
    simp only [hostTokenFired, _clearSession, hreg]
    rfl
  · simp only [hostTokenFired, _clearSession, hreg]
    rw [hpoll]
    exact mapGet_mapDelete_self _ requestKey

/-- C7 (witness) at a concrete state and an unused key. -/
theorem fresh_key_creates_pending_session_witness :
    provideInlineCompletionItems none sampleState sampleDoc samplePos
      (some "k2") =
      ⟨none,
       { sampleState with sessions := mapSet sampleState.sessions "k2" (freshSession sampleDoc samplePos "k2") },
       true⟩ :=
  (fresh_key_creates_pending_session none sampleState sampleDoc samplePos
    (some "k2") "k2" rfl rfl rfl (by decide)).1

/-- C6: a poll whose key maps to a registered session with a different
document version first cancels and discards the stale session (its handle
fires, its entry leaves the registry), then proceeds exactly as if no
session existed: it registers a fresh pending session carrying the live
document version and returns nothing, and the whole call result equals a
call on the cleared state. -/
theorem stale_session_cancelled_and_replaced
    (config : Option (List (String × Bool))) (st : ProviderState)
    (doc : TextDocument) (pos : Position) (ctxRequestUuid : Option String)
    (requestKey : String) (s : CompletionSession)
    (hkey : ctxRequestUuid.getD (synthRequestKey doc pos) = requestKey)
    (hL : _isLanguageEnabled config doc.languageId = true)
    (hM : _isAtMidWord doc pos = false)
    (hget : mapGet st.sessions requestKey = some s)
    (huuid : s.requestUuid = requestKey)
    (hv : s.documentVersion ≠ doc.version) :
    (∃ old, _clearSession st requestKey true =
        ({ st with sessions := mapDelete st.sessions requestKey }, some old) ∧
      old.cancellation.cancelRequested = true ∧
      old.cancellation.disposeCount = s.cancellation.disposeCount + 1) ∧
    mapGet (mapDelete st.sessions requestKey) requestKey = none ∧
    provideInlineCompletionItems config st doc pos ctxRequestUuid =
      ⟨none,
       { st with sessions :=
           mapSet (mapDelete st.sessions requestKey) requestKey (freshSession doc pos requestKey) },
       true⟩ ∧
    provideInlineCompletionItems config st doc pos ctxRequestUuid =
      provideInlineCompletionItems config
        { st with sessions := mapDelete st.sessions requestKey }
        doc pos ctxRequestUuid := by
  have hdel : mapGet (mapDelete st.sessions requestKey) requestKey = none :=
    mapGet_mapDelete_self st.sessions requestKey
  have hpoll : provideInlineCompletionItems config st doc pos ctxRequestUuid =
      ⟨none,
       { st with sessions :=
           mapSet (mapDelete st.sessions requestKey) requestKey (freshSession doc pos requestKey) },
       true⟩ := by
    simp [provideInlineCompletionItems, hkey, hget, hv, hL, hM, huuid,
      _clearSession]
  have hcleared : provideInlineCompletionItems config
      { st with sessions := mapDelete st.sessions requestKey }
      doc pos ctxRequestUuid =
      ⟨none,
       { st with sessions :=
           mapSet (mapDelete st.sessions requestKey) requestKey (freshSession doc pos requestKey) },
       true⟩ := by
    simp [provideInlineCompletionItems, hkey, hdel, hL, hM]
  refine ⟨?_, hdel, hpoll, by rw [hpoll, hcleared]⟩
  refine ⟨{ s with cancellation :=
    (if !s.cancellation.cancelRequested then s.cancellation.cancel
     else s.cancellation).dispose }, ?_, ?_, ?_⟩
  · simp only [_clearSession, hget, Bool.true_and]
  · by_cases hb : s.cancellation.cancelRequested <;>
      simp [hb, Cancellation.cancel, Cancellation.dispose]
  · by_cases hb : s.cancellation.cancelRequested <;>
      simp [hb, Cancellation.cancel, Cancellation.dispose]

/-- C6 (witness) at a concrete stale session (session version 3, live
document version 1). -/
theorem stale_session_cancelled_and_replaced_witness :
    provideInlineCompletionItems none sampleStaleState sampleDoc samplePos
      (some "k") =
      ⟨none,
       { sampleStaleState with sessions := mapSet (mapDelete sampleStaleState.sessions "k") "k" (freshSession sampleDoc samplePos "k") },
       true⟩ :=
  (stale_session_cancelled_and_replaced none sampleStaleState sampleDoc
    samplePos (some "k") "k" sampleStaleSession rfl rfl rfl (by decide)
    rfl (by decide)).2.2.1

/-- C1: (a) along any driver trace whose delta callbacks report cumulative
text (each callback's text extends the text the session holds), the
accumulated text observed after `i` deltas is a prefix of the text observed
after `j ≥ i` deltas, and the terminal classification only ever extends the
text further — the observable text sequence is non-decreasing under the
is-a-prefix-of relation; (b) a poll whose key maps to a registered session
with an unchanged document version and no error returns exactly the current
accumulated-text snapshot (nothing when it is empty) and leaves the
provider state untouched, so no second session is ever created for the key
and repeated polls return the same or a longer snapshot. -/
theorem monotonic_text_and_idempotent_poll :
    (∀ (s : CompletionSession) (ds : List DeltaCall),
      cumulativeOk s ds = true →
      ∀ i j : Nat, i ≤ j → strExt (textAt s ds i) (textAt s ds j)) ∧
    (∀ (s : CompletionSession) (o : FetchOutcome),
      strExt s.text (applyOutcome s o).text) ∧
    (∀ (config : Option (List (String × Bool))) (st : ProviderState)
      (doc : TextDocument) (pos : Position) (ctxRequestUuid : Option String)
      (requestKey : String) (s : CompletionSession),
      ctxRequestUuid.getD (synthRequestKey doc pos) = requestKey →
      _isLanguageEnabled config doc.languageId = true →
      _isAtMidWord doc pos = false →
      mapGet st.sessions requestKey = some s →
      s.documentVersion = doc.version →
      strTruthy s.error = false →
      provideInlineCompletionItems config st doc pos ctxRequestUuid =
        (if s.text == "" then ⟨none, st, false⟩
         else ⟨some { insertText := s.text, rangeStart := s.rangeStart,
                      rangeEnd := s.rangeEnd,
                      correlationId := some s.requestUuid },
               st, false⟩)) := by
  refine ⟨fun s ds h i j hij => textAt_mono s ds h hij,
    fun s o => strExt_applyOutcome s o, ?_⟩
  intro config st doc pos ctxRequestUuid requestKey s hkey hL hM hget hv herr
  simp [provideInlineCompletionItems, hkey, hget, hv, hL, hM, herr]

/-- C1 (witness): a concrete cumulative delta trace ("fu" then "func") and
a concrete poll on a registered, unchanged, error-free session. -/
theorem monotonic_text_and_idempotent_poll_witness :
    strExt (textAt sampleStreamSession sampleDeltas 1)
      (textAt sampleStreamSession sampleDeltas 2) ∧
    provideInlineCompletionItems none sampleState sampleDoc samplePos
      (some "k") =
      (if sampleSession.text == "" then ⟨none, sampleState, false⟩
       else ⟨some { insertText := sampleSession.text,
                    rangeStart := sampleSession.rangeStart,
                    rangeEnd := sampleSession.rangeEnd,
                    correlationId := some sampleSession.requestUuid },
             sampleState, false⟩) :=
  ⟨monotonic_text_and_idempotent_poll.1 sampleStreamSession sampleDeltas
    (by decide) 1 2 (by decide),
   monotonic_text_and_idempotent_poll.2.2 none sampleState sampleDoc
    samplePos (some "k") "k" sampleSession rfl rfl rfl (by decide) rfl rfl⟩

end LlmCompletions
